import Mathlib

/-!
Verification of `hydrological_toolbox/data/download_sea_surface_temperature.py`.

Shallow embedding conventions:
* Calendar dates are modelled as natural-number day counts measured from the
  dataset epoch 1800-01-01 (the NOAA SST time axis is a list of integer
  day-offsets from that very epoch, so a decoded time-axis entry is the
  day-number itself).  The dataset starts in 1981, so days before the epoch
  never occur.
* Floating point values are modelled as rationals; the comparisons performed
  by the code (`term <= 180`, `value < -9e35`, squared-distance minimisation)
  are exact order comparisons, faithfully represented on `ℚ`.
* `pandas.DataFrame` tables become lists of rows; a nullable float column
  becomes `Option ℚ` (`none` = null/NaN).
* Python exceptions become `Except Err _`.
* The network fetch (`download_to_local`) and netCDF decode are external
  effects: they are modelled by an oracle `data : ℕ → Dataset` giving, for
  each calendar year, the raw decoded arrays of that year's grid file
  (longitudes still in the raw [0,360) form; `read_dataset` performs the
  normalisation, as in the source).
-/

namespace SST

/- The Batteries rational-number operations are sealed; re-opening them lets
concrete runs of the embedded functions be evaluated inside proofs. -/
attribute [local semireducible] Rat.add Rat.mul Rat.sub Rat.inv Rat.ofScientific

instance instDecEqExcept {ε α : Type} [DecidableEq ε] [DecidableEq α] :
    DecidableEq (Except ε α) := fun a b =>
  match a, b with
  | .ok x, .ok y => if h : x = y then .isTrue (by rw [h]) else .isFalse (by simp [h])
  | .error x, .error y => if h : x = y then .isTrue (by rw [h]) else .isFalse (by simp [h])
  | .ok _, .error _ => .isFalse (by simp)
  | .error _, .ok _ => .isFalse (by simp)

/-! ### Calendar (proleptic Gregorian, day counts from 1800-01-01) -/

def isLeap (y : ℕ) : Bool :=
  (y % 4 == 0 && y % 100 != 0) || (y % 400 == 0)

def daysInYear (y : ℕ) : ℕ :=
  if isLeap y then 366 else 365

/-- Peel off whole years starting at year `y`; the fuel argument makes the
recursion structural (each real step consumes at least 365 days, so fuel
`d + 1` is always enough). Returns `(year, day-of-year)`. -/
def yearDoyAux : ℕ → ℕ → ℕ → ℕ × ℕ
  | 0, y, d => (y, d)
  | fuel + 1, y, d =>
    if d < daysInYear y then (y, d) else yearDoyAux fuel (y + 1) (d - daysInYear y)

/-- The calendar year of a day-number (days since 1800-01-01).  This models
`pandas.Timestamp.year` for the timestamps produced by `pd.date_range`. -/
def yearOf (d : ℕ) : ℕ := (yearDoyAux (d + 1) 1800 d).1

def monthDays (y m : ℕ) : ℕ :=
  if m = 2 then (if isLeap y then 29 else 28)
  else if m = 4 ∨ m = 6 ∨ m = 9 ∨ m = 11 then 30 else 31

def daysBeforeYear (y : ℕ) : ℕ :=
  ((List.range (y - 1800)).map (fun i => daysInYear (1800 + i))).sum

def daysBeforeMonth (y m : ℕ) : ℕ :=
  ((List.range (m - 1)).map (fun i => monthDays y (1 + i))).sum

/-- Day-number (days since 1800-01-01) of the civil date `y-m-d`. -/
def daysFromCivil (y m d : ℕ) : ℕ :=
  daysBeforeYear y + daysBeforeMonth y m + (d - 1)

/-! ### Date ranges (`pd.date_range(start, end)`: inclusive, consecutive) -/

def dateRange (s e : ℕ) : List ℕ :=
  if s ≤ e then (List.range (e + 1 - s)).map (fun k => s + k) else []

/-! ### Year partitioning (`remote_to_local_dir_mapping`)

The source builds `defaultdict(list)` keyed by `timestamp.year` in a single
ordered pass over `pd.date_range(start, end)`.  Extensionally: the keys are
the years in order of first appearance (`yearKeys`), and the value at key `y`
is the ordered sublist of range dates whose year is `y` (`yearGroup`). -/

def insertKey (acc : List ℕ) (y : ℕ) : List ℕ :=
  if y ∈ acc then acc else acc ++ [y]

def yearKeys (ds : List ℕ) : List ℕ :=
  ds.foldl (fun acc d => insertKey acc (yearOf d)) []

def yearGroup (ds : List ℕ) (y : ℕ) : List ℕ :=
  ds.filter (fun d => yearOf d = y)

def sstDataParentDir : String :=
  "ftp://ftp.cdc.noaa.gov/Datasets/noaa.oisst.v2.highres/"

structure WorkUnit where
  remoteUrl : String
  dates : List ℕ
deriving DecidableEq, Repr

/-- The per-year work units of `remote_to_local_dir_mapping`: one entry per
distinct year of the requested range, keyed in insertion order, remote url
`sst.day.mean.<year>.nc` appended to the fixed parent dir, value the ordered
dates of that year (the local temp-dir path carries no logic and is omitted). -/
def remoteToLocalDirMapping (s e : ℕ) : List WorkUnit :=
  (yearKeys (dateRange s e)).map
    (fun y => ⟨sstDataParentDir ++ "sst.day.mean." ++ toString y ++ ".nc",
               yearGroup (dateRange s e) y⟩)

/-! ### Grid data and `read_dataset` -/

structure Dataset where
  lat : List ℚ
  lon : List ℚ
  time : List ℕ
  sst : ℕ → ℕ → ℕ → ℚ

/-- Line 88 of the source:
`lon = np.array([term if term <= 180 else (term - 360) for term in lon])`. -/
def normalizeLon (x : ℚ) : ℚ :=
  if x ≤ 180 then x else x - 360

/-- `read_dataset` returns the decoded arrays with the longitude axis
normalised; the other arrays pass through unchanged. -/
def read_dataset (d : Dataset) : Dataset :=
  { d with lon := d.lon.map normalizeLon }

/-! ### Spatial nearest-neighbour index (`get_lat_lon_index`) -/

def dist2 (a b : ℚ × ℚ) : ℚ :=
  (a.1 - b.1) * (a.1 - b.1) + (a.2 - b.2) * (a.2 - b.2)

/-- The candidate points of `build_2d_meshgrid(lat, lon)` paired with the
matching rows of `build_2d_meshgrid(lat_idx, lon_idx)`:
`np.meshgrid(lat, lon)` flattened row-major yields, for each longitude
position `i` and latitude position `j`, the point `(lat[j], lon[i])` with
index pair `(j, i)`. -/
def gridCandidates (lat lon : List ℚ) : List ((ℚ × ℚ) × ℕ × ℕ) :=
  (List.range lon.length).flatMap (fun i =>
    (List.range lat.length).map (fun j => ((lat.getD j 0, lon.getD i 0), (j, i))))

/-- `KDTree(lat_lon_matrix).query(q)`: the candidate minimising Euclidean
distance (equivalently squared distance), first-in-order on ties. -/
def nearestCell (lat lon : List ℚ) (q : ℚ × ℚ) : ℕ × ℕ :=
  match (gridCandidates lat lon).argmin (fun c => dist2 c.1 q) with
  | some c => c.2
  | none => (0, 0)

def get_lat_lon_index (lat lon : List ℚ) (locs : List (ℚ × ℚ)) : List (ℕ × ℕ) :=
  locs.map (nearestCell lat lon)

/-! ### Errors -/

inductive Err
  | typeError       -- `raise TypeError(...)`
  | lengthMismatch  -- pandas `ValueError` when assigning 2 column names to ≠2 columns
  | indexError      -- `locations[0]` on an empty sequence
  | dateKeyError    -- `KeyError` in `get_time_index` (spec: DateNotFoundError)
  | emptyConcat     -- `pd.concat([])` `ValueError` on an empty date range
deriving DecidableEq, Repr

/-! ### Temporal index (`get_time_index`) -/

/-- The dict comprehension
`{str(date(1800,1,1)+timedelta(int(t))): i for i, t in enumerate(timeline)}`
keyed by decoded date (decoding a day-offset from 1800-01-01 is the identity
in our day-number representation; the string rendering is injective).  A
repeated decoded date keeps the later index, as dict insertion overwrites. -/
def lookupDateAux (d : ℕ) : List ℕ → ℕ → Option ℕ → Option ℕ
  | [], _, acc => acc
  | t :: rest, i, acc => lookupDateAux d rest (i + 1) (if t = d then some i else acc)

def lookupDate (tl : List ℕ) (d : ℕ) : Option ℕ :=
  lookupDateAux d tl 0 none

/-- For each requested date (already at day granularity: the source strips a
time-of-day component before lookup) the exact index in the time axis; a
missing date raises (`KeyError`, spec name `DateNotFoundError`). -/
def get_time_index (tl : List ℕ) : List ℕ → Except Err (List ℕ)
  | [] => .ok []
  | d :: rest =>
    match lookupDate tl d with
    | none => .error .dateKeyError
    | some i => (get_time_index tl rest).map (fun l => i :: l)

/-! ### The extraction and assembly pipeline (`download`) -/

structure Row where
  date : ℕ
  lat : ℚ
  lon : ℚ
  sst : Option ℚ
deriving DecidableEq, Repr

structure Request where
  locations : List (ℚ × ℚ)
  startDate : ℕ
  endDate : ℕ

def missingThreshold : ℚ := -9e35

/-- The netCDF fill value -9.96921e+36 marking missing/land data. -/
def sentinelValue : ℚ := -9.96921e36

/-- One year's reshaped block.  `np.repeat(time_index, L)` /
`np.tile(lat_index, T)` / `np.tile(lon_index, T)` pair the k-th date with
every location before moving on: row `k*L + p` reads
`sst[time_index[k], lat_index[p], lon_index[p]]` and reports the grid's own
coordinates at those indices. -/
def yearRows (locs : List (ℚ × ℚ)) (g : Dataset) (tidx : List ℕ) (dates : List ℕ) :
    List Row :=
  let idxPairs := get_lat_lon_index g.lat g.lon locs
  (dates.zip tidx).flatMap (fun dt =>
    idxPairs.map (fun p =>
      ⟨dt.1, g.lat.getD p.1 0, g.lon.getD p.2 0, some (g.sst dt.2 p.1 p.2)⟩))

def processYear (locs : List (ℚ × ℚ)) (g : Dataset) (dates : List ℕ) :
    Except Err (List Row) :=
  (get_time_index g.time dates).map (fun tidx => yearRows locs g tidx dates)

/-- The main loop of `download`: one iteration per work unit, in mapping
order; each year's grid is decoded (`read_dataset`) and extracted, and the
per-year frames are concatenated in loop order. -/
def processAll (locs : List (ℚ × ℚ)) (data : ℕ → Dataset) :
    List (ℕ × List ℕ) → Except Err (List Row)
  | [] => .ok []
  | (y, dy) :: rest => do
    let rows ← processYear locs (read_dataset (data y)) dy
    let more ← processAll locs data rest
    .ok (rows ++ more)

def workUnits (s e : ℕ) : List (ℕ × List ℕ) :=
  (yearKeys (dateRange s e)).map (fun y => (y, yearGroup (dateRange s e) y))

/-- Line 216: `output.loc[output['SST'] < -9e35, 'SST'] = np.nan` — a null
compares false, so only present values strictly below the threshold are
replaced. -/
def replaceSentinel (r : Row) : Row :=
  match r.sst with
  | some v => if v < missingThreshold then { r with sst := none } else r
  | none => r

/-- `SeaSurfaceTempDownloader.download`.  Returns the final table and the
warning flag.  Faithful order of operations: the per-year loop, then
`pd.concat` (which raises on an empty frame list, i.e. an empty date range),
then the null count of the *raw* SST column is compared with the row count
(the warning), and only then are values `< -9e35` replaced by the missing
marker. -/
def download (req : Request) (data : ℕ → Dataset) :
    Except Err (List Row × Bool) :=
  let units := workUnits req.startDate req.endDate
  if units.isEmpty then .error .emptyConcat
  else
    (processAll req.locations data units).map (fun raw =>
      let warn := raw.countP (fun r => r.sst.isNone) == raw.length
      (raw.map replaceSentinel, warn))

/-! ### Public entry points (`from_tuples`, `download_sst`) -/

/-- A Python value appearing in a user-supplied coordinate sequence. -/
inductive PyVal
  | num (q : ℚ)
  | seq (row : List ℚ)
  | other
deriving DecidableEq

/-- Column count of `pd.DataFrame(rows)`: ragged rows are padded, so it is
the maximum row length. -/
def ncolsOf (rows : List (List ℚ)) : ℕ :=
  rows.foldr (fun r m => max r.length m) 0

/-- `SeaSurfaceTempDownloader.from_tuples`: peek at `locations[0]`; a nested
sequence yields `pd.DataFrame(locations)`, a number yields
`pd.DataFrame([locations])` (one row, `len(locations)` columns), anything
else raises the documented `TypeError`.  The subsequent column-name
assignment `locations_df.columns = ['LAT','LON']` raises a length-mismatch
`ValueError` whenever the frame does not have exactly 2 columns. -/
def from_tuples (locs : List PyVal) : Except Err (List (ℚ × ℚ)) :=
  match locs.head? with
  | none => .error .indexError
  | some (.seq _) =>
    let rows := locs.map (fun v => match v with
      | .seq r => r
      | .num q => [q]
      | .other => [])
    if ncolsOf rows = 2 then .ok (rows.map (fun r => (r.getD 0 0, r.getD 1 0)))
    else .error .lengthMismatch
  | some (.num _) =>
    let row := locs.map (fun v => match v with
      | .num q => q
      | _ => 0)
    if row.length = 2 then .ok [(row.getD 0 0, row.getD 1 0)]
    else .error .lengthMismatch
  | some .other => .error .typeError

/-- The type of the `locations` argument of `download_sst`. -/
inductive LocInput
  | dataFrame (locs : List (ℚ × ℚ))
  | pySeq (vals : List PyVal)
  | str (s : String)
  | other

/-- `download_sst`: dispatch on the input type.  Every string — length 2
(state abbreviation), longer (address), or shorter (falls through to the
final `else`) — raises `TypeError` before any downloader is constructed, so
before any network or file access: the result is an error for *every* data
oracle.  Any input that is none of DataFrame/tuple/list/str takes the final
`else` branch, also a `TypeError`. -/
def download_sst (locations : LocInput) (s e : ℕ) (data : ℕ → Dataset) :
    Except Err (List Row × Bool) :=
  match locations with
  | .dataFrame locs => download ⟨locs, s, e⟩ data
  | .pySeq vals => do
    let locs ← from_tuples vals
    download ⟨locs, s, e⟩ data
  | .str _ => .error .typeError
  | .other => .error .typeError

/-- The grid cell (actual grid coordinates) that the spatial index assigns to
the `p`-th query location against a given year's raw dataset. -/
def cellCoords (raw : Dataset) (locs : List (ℚ × ℚ)) (p : ℕ) : ℚ × ℚ :=
  let g := read_dataset raw
  let pr := (get_lat_lon_index g.lat g.lon locs).getD p (0, 0)
  (g.lat.getD pr.1 0, g.lon.getD pr.2 0)

/-- Date / lat / lon skeleton of a row (everything except the measurement). -/
def skel (r : Row) : ℕ × ℚ × ℚ :=
  (r.date, r.lat, r.lon)

/-! ### Concrete inputs used to exercise the pipeline -/

def reqA : Request := ⟨[(0, 0)], 0, 1⟩

def dataA : ℕ → Dataset := fun _ => ⟨[0], [0], [0, 1], fun t _ _ => (t : ℚ) + 5⟩

def outA : List Row := [⟨0, 0, 0, some 5⟩, ⟨1, 0, 0, some 6⟩]

def reqB : Request := ⟨[(0, 0)], 0, 0⟩

/-- A grid whose every cell holds exactly the replacement threshold -9e35. -/
def dataThreshold : ℕ → Dataset := fun _ => ⟨[0], [0], [0], fun _ _ _ => missingThreshold⟩

/-- A grid whose every cell holds the missing-data sentinel -9.96921e+36. -/
def dataSentinel : ℕ → Dataset := fun _ => ⟨[0], [0], [0], fun _ _ _ => sentinelValue⟩

/-- Default row used with `List.getD` when indexing output tables. -/
def defRow : Row := ⟨0, 0, 0, none⟩

/-! ## Lemmas -/

/-! ### Calendar -/

theorem le_daysInYear (y : ℕ) : 365 ≤ daysInYear y := by
  unfold daysInYear
  split <;> omega

theorem yearDoyAux_fst_le : ∀ (f y d : ℕ), y ≤ (yearDoyAux f y d).1
  | 0, _, _ => le_refl _
  | f + 1, y, d => by
    unfold yearDoyAux
    split
    · exact le_refl y
    · exact le_trans (Nat.le_succ y) (yearDoyAux_fst_le f (y + 1) _)

theorem yearDoyAux_fuel_irrel : ∀ (f f' y d : ℕ), d < 365 * f → d < 365 * f' →
    yearDoyAux f y d = yearDoyAux f' y d
  | 0, _, _, _, h, _ => absurd h (by omega)
  | _ + 1, 0, _, _, _, h' => absurd h' (by omega)
  | f + 1, f' + 1, y, d, h, h' => by
    have hy := le_daysInYear y
    unfold yearDoyAux
    split
    · rfl
    · exact yearDoyAux_fuel_irrel f f' (y + 1) (d - daysInYear y)
        (by omega) (by omega)

theorem yearDoyAux_fst_mono : ∀ (f y d d' : ℕ), d ≤ d' → d' < 365 * f →
    (yearDoyAux f y d).1 ≤ (yearDoyAux f y d').1
  | 0, _, _, _, _, h' => absurd h' (by omega)
  | f + 1, y, d, d', h, h' => by
    have hy := le_daysInYear y
    unfold yearDoyAux
    split
    · split
      · exact le_refl y
      · exact le_trans (Nat.le_succ y) (yearDoyAux_fst_le f (y + 1) _)
    · have hd : ¬d' < daysInYear y := by omega
      simp only [hd, if_false]
      exact yearDoyAux_fst_mono f (y + 1) (d - daysInYear y) (d' - daysInYear y)
        (by omega) (by omega)

theorem yearOf_mono {d d' : ℕ} (h : d ≤ d') : yearOf d ≤ yearOf d' := by
  unfold yearOf
  rw [yearDoyAux_fuel_irrel (d + 1) (d' + 1) 1800 d (by omega) (by omega)]
  exact yearDoyAux_fst_mono (d' + 1) 1800 d d' h (by omega)

/-! ### Date ranges -/

theorem dateRange_pairwise (s e : ℕ) : (dateRange s e).Pairwise (· ≤ ·) := by
  unfold dateRange
  split
  · exact List.pairwise_map.2
      ((List.pairwise_lt_range _).imp (fun h => by omega))
  · exact List.Pairwise.nil

theorem dateRange_years_pairwise (s e : ℕ) :
    ((dateRange s e).map yearOf).Pairwise (· ≤ ·) :=
  List.pairwise_map.2 ((dateRange_pairwise s e).imp (fun h => yearOf_mono h))

theorem dateRange_length (s e : ℕ) (h : s ≤ e) :
    (dateRange s e).length = e + 1 - s := by
  unfold dateRange
  simp [h]

theorem dateRange_ne_nil (s e : ℕ) (h : s ≤ e) : dateRange s e ≠ [] := by
  have := dateRange_length s e h
  intro hnil
  rw [hnil] at this
  simp at this
  omega

theorem dateRange_getD (s e k : ℕ) (h : s ≤ e) (hk : k < (dateRange s e).length) :
    (dateRange s e).getD k 0 = s + k := by
  unfold dateRange at hk ⊢
  simp only [h, if_pos] at hk ⊢
  rw [List.getD_eq_getElem _ _ hk]
  simp

/-! ### Year grouping -/

theorem mem_insertKey {acc : List ℕ} {y z : ℕ} :
    z ∈ insertKey acc y ↔ z ∈ acc ∨ z = y := by
  unfold insertKey
  split
  · next h =>
    refine ⟨fun hz => Or.inl hz, ?_⟩
    rintro (hz | rfl)
    · exact hz
    · exact h
  · simp

theorem insertKey_cons_ne {acc : List ℕ} {a y : ℕ} (h : y ≠ a) :
    insertKey (a :: acc) y = a :: insertKey acc y := by
  unfold insertKey
  simp only [List.mem_cons, h, false_or]
  split <;> simp

theorem foldl_insertKey_mem : ∀ (l acc : List ℕ) (z : ℕ),
    z ∈ l.foldl (fun acc d => insertKey acc (yearOf d)) acc ↔
      z ∈ acc ∨ ∃ x ∈ l, yearOf x = z
  | [], acc, z => by simp
  | x :: t, acc, z => by
    rw [List.foldl_cons, foldl_insertKey_mem t _ z]
    constructor
    · rintro (hz | hz)
      · rcases mem_insertKey.1 hz with hz | rfl
        · exact Or.inl hz
        · exact Or.inr ⟨x, List.mem_cons_self x t, rfl⟩
      · rcases hz with ⟨w, hw, hwz⟩
        exact Or.inr ⟨w, List.mem_cons_of_mem x hw, hwz⟩
    · rintro (hz | ⟨w, hw, hwz⟩)
      · exact Or.inl (mem_insertKey.2 (Or.inl hz))
      · rcases List.mem_cons.1 hw with rfl | hw
        · exact Or.inl (mem_insertKey.2 (Or.inr hwz.symm))
        · exact Or.inr ⟨w, hw, hwz⟩

theorem mem_yearKeys {ds : List ℕ} {z : ℕ} :
    z ∈ yearKeys ds ↔ ∃ x ∈ ds, yearOf x = z := by
  unfold yearKeys
  rw [foldl_insertKey_mem]
  simp

theorem insertKey_nodup {acc : List ℕ} {y : ℕ} (h : acc.Nodup) :
    (insertKey acc y).Nodup := by
  unfold insertKey
  split
  · exact h
  · next hy =>
    refine List.Nodup.append h (List.nodup_singleton y) ?_
    intro a ha hay
    rw [List.mem_singleton.1 hay] at ha
    exact hy ha

theorem foldl_insertKey_nodup : ∀ (l acc : List ℕ), acc.Nodup →
    (l.foldl (fun acc d => insertKey acc (yearOf d)) acc).Nodup
  | [], _, h => h
  | x :: t, acc, h => by
    rw [List.foldl_cons]
    exact foldl_insertKey_nodup t _ (insertKey_nodup h)

theorem yearKeys_nodup (ds : List ℕ) : (yearKeys ds).Nodup :=
  foldl_insertKey_nodup ds [] List.nodup_nil

theorem foldl_insertKey_extends : ∀ (l acc : List ℕ),
    ∃ ext, l.foldl (fun acc d => insertKey acc (yearOf d)) acc = acc ++ ext
  | [], acc => ⟨[], by simp⟩
  | x :: t, acc => by
    rw [List.foldl_cons]
    by_cases hx : yearOf x ∈ acc
    · have hid : insertKey acc (yearOf x) = acc := by
        unfold insertKey
        simp [hx]
      rw [hid]
      exact foldl_insertKey_extends t acc
    · have hid : insertKey acc (yearOf x) = acc ++ [yearOf x] := by
        unfold insertKey
        simp [hx]
      rw [hid]
      rcases foldl_insertKey_extends t (acc ++ [yearOf x]) with ⟨ext, hext⟩
      exact ⟨[yearOf x] ++ ext, by rw [hext, List.append_assoc]⟩

theorem foldl_insertKey_cons : ∀ (l acc : List ℕ) (a : ℕ),
    (∀ x ∈ l, yearOf x ≠ a) →
    l.foldl (fun acc d => insertKey acc (yearOf d)) (a :: acc) =
      a :: l.foldl (fun acc d => insertKey acc (yearOf d)) acc
  | [], _, _, _ => rfl
  | x :: t, acc, a, h => by
    rw [List.foldl_cons, List.foldl_cons,
      insertKey_cons_ne (h x (List.mem_cons_self x t))]
    exact foldl_insertKey_cons t _ a (fun w hw => h w (List.mem_cons_of_mem x hw))

theorem yearGroup_cons (d : ℕ) (t : List ℕ) (y : ℕ) :
    yearGroup (d :: t) y =
      if yearOf d = y then d :: yearGroup t y else yearGroup t y := by
  unfold yearGroup
  rw [List.filter_cons]
  split <;> simp_all

/-- The grouped date lists, concatenated in key order, restore the original
range whenever the year sequence is non-decreasing (always true of a
`pd.date_range` enumeration). -/
theorem flatten_yearGroups : ∀ (ds : List ℕ),
    (ds.map yearOf).Pairwise (· ≤ ·) →
    ((yearKeys ds).map (fun y => yearGroup ds y)).flatten = ds
  | [], _ => rfl
  | d :: t, hsorted => by
    have h1 : ∀ b ∈ t.map yearOf, yearOf d ≤ b :=
      (List.pairwise_cons.1 (by simpa using hsorted)).1
    have h2 : (t.map yearOf).Pairwise (· ≤ ·) :=
      (List.pairwise_cons.1 (by simpa using hsorted)).2
    by_cases hmem : yearOf d ∈ t.map yearOf
    · -- the year of `d` continues into `t`: `t` starts with the same year
      match t, hmem with
      | t0 :: t', hmem =>
        have h2' : (yearOf t0 :: t'.map yearOf).Pairwise (· ≤ ·) := by
          simpa using h2
        have ht0 : yearOf t0 = yearOf d := by
          rcases List.mem_map.1 hmem with ⟨a, ha, hay⟩
          rcases List.mem_cons.1 ha with rfl | ha'
          · exact hay
          · have hle : yearOf t0 ≤ yearOf a :=
              (List.pairwise_cons.1 h2').1 _ (List.mem_map_of_mem yearOf ha')
            have hge : yearOf d ≤ yearOf t0 :=
              h1 _ (by simp)
            omega
        have hkeys : yearKeys (d :: t0 :: t') = yearKeys (t0 :: t') := by
          unfold yearKeys
          rw [List.foldl_cons, List.foldl_cons, List.foldl_cons]
          have : insertKey (insertKey [] (yearOf d)) (yearOf t0) =
              insertKey [] (yearOf d) := by
            unfold insertKey
            simp [ht0]
          rw [this]
          have : insertKey [] (yearOf t0) = insertKey [] (yearOf d) := by
            unfold insertKey
            simp [ht0]
          rw [this]
        rcases foldl_insertKey_extends t' (insertKey [] (yearOf t0)) with ⟨ext, hext⟩
        have hkform : yearKeys (t0 :: t') = yearOf d :: ext := by
          unfold yearKeys
          rw [List.foldl_cons, hext]
          unfold insertKey
          simp [ht0]
        have hnodup := yearKeys_nodup (t0 :: t')
        rw [hkform] at hnodup
        have hnot_ext : yearOf d ∉ ext := (List.nodup_cons.1 hnodup).1
        have IH := flatten_yearGroups (t0 :: t') h2
        rw [hkform] at IH
        rw [List.map_cons, List.flatten_cons] at IH
        rw [hkeys, hkform, List.map_cons, List.flatten_cons]
        rw [yearGroup_cons, if_pos rfl]
        have hgroups : ext.map (fun y => yearGroup (d :: t0 :: t') y) =
            ext.map (fun y => yearGroup (t0 :: t') y) := by
          apply List.map_congr_left
          intro y hy
          rw [yearGroup_cons, if_neg]
          intro hcontra
          exact hnot_ext (hcontra ▸ hy)
        rw [hgroups, List.cons_append]
        exact congrArg (List.cons d) IH
    · -- the year of `d` never recurs: it contributes the single block `[d]`
      have hkeys : yearKeys (d :: t) = yearOf d :: yearKeys t := by
        unfold yearKeys
        rw [List.foldl_cons]
        have : insertKey [] (yearOf d) = [yearOf d] := by
          unfold insertKey
          simp
        rw [this]
        refine foldl_insertKey_cons t [] (yearOf d) ?_
        intro x hx hcontra
        apply hmem
        rw [← hcontra]
        exact List.mem_map_of_mem yearOf hx
      have hgroup_d : yearGroup (d :: t) (yearOf d) = [d] := by
        rw [yearGroup_cons, if_pos rfl]
        have : yearGroup t (yearOf d) = [] := by
          unfold yearGroup
          rw [List.filter_eq_nil_iff]
          intro x hx
          simp only [decide_eq_true_eq]
          intro hcontra
          apply hmem
          rw [← hcontra]
          exact List.mem_map_of_mem yearOf hx
        rw [this]
      have hgroups : (yearKeys t).map (fun y => yearGroup (d :: t) y) =
          (yearKeys t).map (fun y => yearGroup t y) := by
        apply List.map_congr_left
        intro y hy
        rw [yearGroup_cons, if_neg]
        intro hcontra
        rcases mem_yearKeys.1 hy with ⟨x, hx, hxy⟩
        apply hmem
        rw [hcontra, ← hxy]
        exact List.mem_map_of_mem yearOf hx
      rw [hkeys, List.map_cons, List.flatten_cons, hgroup_d, hgroups,
        flatten_yearGroups t h2]
      rfl

theorem mem_yearGroup {ds : List ℕ} {y d : ℕ} (h : d ∈ yearGroup ds y) :
    d ∈ ds ∧ yearOf d = y := by
  unfold yearGroup at h
  have := List.mem_filter.1 h
  simpa using this

theorem flatMap_congr_mem {α β : Type} {l : List α} {f g : α → List β}
    (h : ∀ a ∈ l, f a = g a) : l.flatMap f = l.flatMap g := by
  unfold List.flatMap
  rw [List.map_congr_left h]

theorem flatten_flatMap {α β : Type} : ∀ (L : List (List α)) (h : α → List β),
    L.flatten.flatMap h = (L.map (fun l => l.flatMap h)).flatten
  | [], _ => rfl
  | l :: L, h => by
    rw [List.flatten_cons, List.flatMap_append, List.map_cons, List.flatten_cons,
      flatten_flatMap L h]

/-- Iterating year groups in key order and, inside each group, a
year-dependent per-date block, is the same as one pass over the sorted range
with the block taken at each date's own year. -/
theorem flatMap_yearGroups {β : Type} (ds : List ℕ)
    (hsorted : (ds.map yearOf).Pairwise (· ≤ ·)) (G : ℕ → ℕ → List β) :
    (yearKeys ds).flatMap (fun y => (yearGroup ds y).flatMap (G y)) =
      ds.flatMap (fun d => G (yearOf d) d) := by
  have hcongr : ∀ y, (yearGroup ds y).flatMap (G y) =
      (yearGroup ds y).flatMap (fun d => G (yearOf d) d) := by
    intro y
    apply flatMap_congr_mem
    intro d hd
    rw [(mem_yearGroup hd).2]
  calc (yearKeys ds).flatMap (fun y => (yearGroup ds y).flatMap (G y))
      = (yearKeys ds).flatMap
          (fun y => (yearGroup ds y).flatMap (fun d => G (yearOf d) d)) :=
        flatMap_congr_mem (fun y _ => hcongr y)
    _ = ((yearKeys ds).map (fun y => yearGroup ds y)).flatten.flatMap
          (fun d => G (yearOf d) d) := by
        rw [flatten_flatMap, List.map_map]
        rfl
    _ = ds.flatMap (fun d => G (yearOf d) d) := by
        rw [flatten_yearGroups ds hsorted]

/-! ### Temporal index -/

theorem lookupDateAux_some {d : ℕ} : ∀ (l : List ℕ) (i : ℕ) (acc : Option ℕ) {j : ℕ},
    lookupDateAux d l i acc = some j →
    (∃ k, k < l.length ∧ l.getD k 0 = d ∧ j = i + k) ∨ acc = some j
  | [], _, _, _, h => Or.inr h
  | t :: rest, i, acc, j, h => by
    rw [lookupDateAux] at h
    rcases lookupDateAux_some rest (i + 1) _ h with ⟨k, hk, hkd, hj⟩ | hacc
    · exact Or.inl ⟨k + 1, by simpa using hk, by simpa using hkd, by omega⟩
    · by_cases ht : t = d
      · rw [if_pos ht] at hacc
        exact Or.inl ⟨0, by simp, by simpa using ht, by
          simpa using (Option.some.injEq _ _ ▸ hacc : i = j).symm⟩
      · rw [if_neg ht] at hacc
        exact Or.inr hacc

theorem lookupDateAux_none {d : ℕ} : ∀ (l : List ℕ) (i : ℕ) (acc : Option ℕ),
    lookupDateAux d l i acc = none ↔ acc = none ∧ d ∉ l
  | [], _, acc => by simp [lookupDateAux]
  | t :: rest, i, acc => by
    rw [lookupDateAux, lookupDateAux_none rest (i + 1)]
    by_cases ht : t = d
    · simp [ht]
    · rw [if_neg ht]
      constructor
      · rintro ⟨ha, hr⟩
        refine ⟨ha, ?_⟩
        intro hm
        rcases List.mem_cons.1 hm with rfl | hm'
        · exact ht rfl
        · exact hr hm'
      · rintro ⟨ha, hr⟩
        exact ⟨ha, fun hm => hr (List.mem_cons_of_mem t hm)⟩

theorem lookupDate_some {tl : List ℕ} {d i : ℕ} (h : lookupDate tl d = some i) :
    i < tl.length ∧ tl.getD i 0 = d := by
  rcases lookupDateAux_some tl 0 none h with ⟨k, hk, hkd, hik⟩ | habs
  · subst hik
    simp only [Nat.zero_add]
    exact ⟨hk, hkd⟩
  · exact absurd habs (by simp)

theorem lookupDate_none {tl : List ℕ} {d : ℕ} :
    lookupDate tl d = none ↔ d ∉ tl := by
  unfold lookupDate
  rw [lookupDateAux_none]
  simp

theorem get_time_index_ok {tl : List ℕ} : ∀ (dates : List ℕ) {idxs : List ℕ},
    get_time_index tl dates = .ok idxs →
    idxs.length = dates.length ∧
      ∀ k, k < dates.length →
        idxs.getD k 0 < tl.length ∧ tl.getD (idxs.getD k 0) 0 = dates.getD k 0
  | [], idxs, h => by
    rw [get_time_index] at h
    cases h
    exact ⟨rfl, fun k hk => absurd hk (by simp)⟩
  | d :: rest, idxs, h => by
    rw [get_time_index] at h
    cases hl : lookupDate tl d with
    | none => rw [hl] at h; cases h
    | some i =>
      rw [hl] at h
      cases hrec : get_time_index tl rest with
      | error e => rw [hrec] at h; cases h
      | ok l' =>
        rw [hrec] at h
        cases h
        rcases get_time_index_ok rest hrec with ⟨hlen, hspec⟩
        refine ⟨by simpa using hlen, ?_⟩
        intro k hk
        cases k with
        | zero => simpa using lookupDate_some hl
        | succ k => simpa using hspec k (by simpa using hk)

theorem get_time_index_error {tl : List ℕ} : ∀ (dates : List ℕ),
    (∃ d ∈ dates, d ∉ tl) → get_time_index tl dates = .error .dateKeyError
  | [], h => absurd h (by simp)
  | d :: rest, h => by
    rw [get_time_index]
    rcases h with ⟨w, hw, hwtl⟩
    rcases List.mem_cons.1 hw with rfl | hw'
    · rw [lookupDate_none.2 hwtl]
    · cases hl : lookupDate tl d with
      | none => rfl
      | some i =>
        rw [get_time_index_error rest ⟨w, hw', hwtl⟩]
        rfl

/-! ### Spatial index -/

theorem mem_gridCandidates {lat lon : List ℚ} {c : (ℚ × ℚ) × ℕ × ℕ} :
    c ∈ gridCandidates lat lon ↔
      ∃ j i, j < lat.length ∧ i < lon.length ∧
        c = ((lat.getD j 0, lon.getD i 0), (j, i)) := by
  unfold gridCandidates
  simp only [List.mem_flatMap, List.mem_map, List.mem_range]
  constructor
  · rintro ⟨i, hi, j, hj, rfl⟩
    exact ⟨j, i, hj, hi, rfl⟩
  · rintro ⟨j, i, hj, hi, rfl⟩
    exact ⟨i, hi, j, hj, rfl⟩

theorem gridCandidates_ne_nil {lat lon : List ℚ} (hlat : lat ≠ []) (hlon : lon ≠ []) :
    gridCandidates lat lon ≠ [] :=
  List.ne_nil_of_mem (mem_gridCandidates.2
    ⟨0, 0, List.length_pos.2 hlat, List.length_pos.2 hlon, rfl⟩)

theorem dist2_nonneg (a b : ℚ × ℚ) : 0 ≤ dist2 a b :=
  add_nonneg (mul_self_nonneg _) (mul_self_nonneg _)

theorem dist2_eq_zero_iff {a b : ℚ × ℚ} : dist2 a b = 0 ↔ a = b := by
  unfold dist2
  constructor
  · intro h
    have h1 : (a.1 - b.1) * (a.1 - b.1) = 0 :=
      le_antisymm (by nlinarith [mul_self_nonneg (a.2 - b.2)]) (mul_self_nonneg _)
    have h2 : (a.2 - b.2) * (a.2 - b.2) = 0 := by linarith
    have e1 : a.1 = b.1 := by
      have := mul_self_eq_zero.1 h1
      linarith
    have e2 : a.2 = b.2 := by
      have := mul_self_eq_zero.1 h2
      linarith
    exact Prod.ext e1 e2
  · rintro rfl
    ring

/-- The KD-tree query returns a candidate of minimal squared distance. -/
theorem nearestCell_spec {lat lon : List ℚ} (q : ℚ × ℚ)
    (hlat : lat ≠ []) (hlon : lon ≠ []) :
    ∃ c ∈ gridCandidates lat lon, nearestCell lat lon q = c.2 ∧
      ∀ c' ∈ gridCandidates lat lon, dist2 c.1 q ≤ dist2 c'.1 q := by
  unfold nearestCell
  cases ha : (gridCandidates lat lon).argmin (fun c => dist2 c.1 q) with
  | none => exact absurd (List.argmin_eq_none.1 ha) (gridCandidates_ne_nil hlat hlon)
  | some c =>
    have hmem : c ∈ (gridCandidates lat lon).argmin (fun c => dist2 c.1 q) :=
      Option.mem_def.2 ha
    exact ⟨c, List.argmin_mem hmem, rfl,
      fun c' hc' => List.le_of_mem_argmin hc' hmem⟩

/-- A query coinciding with a grid cell centre is resolved to exactly that
cell's index pair whenever the two coordinate axes have no duplicates. -/
theorem nearestCell_exact {lat lon : List ℚ} (hlat : lat.Nodup) (hlon : lon.Nodup)
    {j i : ℕ} (hj : j < lat.length) (hi : i < lon.length) :
    nearestCell lat lon (lat.getD j 0, lon.getD i 0) = (j, i) := by
  have hlat0 : lat ≠ [] := by
    intro hnil
    rw [hnil] at hj
    simp at hj
  have hlon0 : lon ≠ [] := by
    intro hnil
    rw [hnil] at hi
    simp at hi
  set q : ℚ × ℚ := (lat.getD j 0, lon.getD i 0) with hq
  rcases nearestCell_spec q hlat0 hlon0 with ⟨c, hcmem, hceq, hcmin⟩
  have hc0 : ((lat.getD j 0, lon.getD i 0), (j, i)) ∈ gridCandidates lat lon :=
    mem_gridCandidates.2 ⟨j, i, hj, hi, rfl⟩
  have hzero : dist2 c.1 q = 0 := by
    have hle := hcmin _ hc0
    have : dist2 ((lat.getD j 0, lon.getD i 0) : ℚ × ℚ) q = 0 :=
      dist2_eq_zero_iff.2 (by rw [hq])
    have hge := dist2_nonneg c.1 q
    linarith
  have hcq : c.1 = q := dist2_eq_zero_iff.1 hzero
  rcases mem_gridCandidates.1 hcmem with ⟨j', i', hj', hi', hc⟩
  rw [hceq, hc]
  have hlat_eq : lat.getD j' 0 = lat.getD j 0 := by
    have := congrArg Prod.fst hcq
    rw [hc] at this
    simpa [hq] using this
  have hlon_eq : lon.getD i' 0 = lon.getD i 0 := by
    have := congrArg Prod.snd hcq
    rw [hc] at this
    simpa [hq] using this
  have hjj : j' = j := by
    rw [List.getD_eq_getElem _ _ hj', List.getD_eq_getElem _ _ hj] at hlat_eq
    exact (List.Nodup.getElem_inj_iff hlat).1 hlat_eq
  have hii : i' = i := by
    rw [List.getD_eq_getElem _ _ hi', List.getD_eq_getElem _ _ hi] at hlon_eq
    exact (List.Nodup.getElem_inj_iff hlon).1 hlon_eq
  rw [hjj, hii]

/-! ### Generic indexing facts for fixed-size blocks -/

theorem getD_append_lt {α : Type} (l1 l2 : List α) (i : ℕ) (d : α)
    (h : i < l1.length) : (l1 ++ l2).getD i d = l1.getD i d := by
  simp only [List.getD_eq_getElem?_getD]
  rw [List.getElem?_append_left h]

theorem getD_append_ge {α : Type} (l1 l2 : List α) (i : ℕ) (d : α)
    (h : l1.length ≤ i) : (l1 ++ l2).getD i d = l2.getD (i - l1.length) d := by
  simp only [List.getD_eq_getElem?_getD]
  rw [List.getElem?_append_right h]

theorem zip_flatMap_fst {α β γ : Type} : ∀ (l1 : List α) (l2 : List β)
    (g : α → List γ), l1.length = l2.length →
    (l1.zip l2).flatMap (fun p => g p.1) = l1.flatMap g
  | [], [], _, _ => rfl
  | [], _ :: _, _, h => absurd h (by simp)
  | _ :: _, [], _, h => absurd h (by simp)
  | a :: t1, b :: t2, g, h => by
    rw [List.zip_cons_cons, List.flatMap_cons, List.flatMap_cons,
      zip_flatMap_fst t1 t2 g (by simpa using h)]

theorem flatMap_length_const {α β : Type} (L : ℕ) : ∀ (l : List α)
    (g : α → List β), (∀ a ∈ l, (g a).length = L) →
    (l.flatMap g).length = l.length * L
  | [], _, _ => by simp
  | a :: t, g, h => by
    rw [List.flatMap_cons, List.length_append, h a (List.mem_cons_self a t),
      flatMap_length_const L t g (fun x hx => h x (List.mem_cons_of_mem a hx)),
      List.length_cons, Nat.succ_mul]
    omega

theorem flatMap_getD {α β : Type} (L : ℕ) (hL : 0 < L) (dA : α) (dB : β) :
    ∀ (l : List α) (g : α → List β), (∀ a ∈ l, (g a).length = L) →
    ∀ i, i < l.length * L →
    (l.flatMap g).getD i dB = (g (l.getD (i / L) dA)).getD (i % L) dB
  | [], _, _, i, hi => absurd hi (by simp)
  | a :: t, g, h, i, hi => by
    have ha : (g a).length = L := h a (List.mem_cons_self a t)
    rw [List.flatMap_cons]
    by_cases hiL : i < L
    · rw [getD_append_lt _ _ _ _ (by omega), Nat.div_eq_of_lt hiL,
        Nat.mod_eq_of_lt hiL]
      rfl
    · have hi' : i = (i - L) + L := by omega
      rw [getD_append_ge _ _ _ _ (by omega), ha, hi', Nat.add_div_right _ hL,
        Nat.add_mod_right]
      have hrec : i - L < t.length * L := by
        rw [List.length_cons, Nat.succ_mul] at hi
        omega
      simp only [Nat.add_sub_cancel]
      rw [flatMap_getD L hL dA dB t g
        (fun x hx => h x (List.mem_cons_of_mem a hx)) (i - L) hrec,
        List.getD_cons_succ]

/-! ### The assembled pipeline -/

theorem processYear_ok {locs : List (ℚ × ℚ)} {g : Dataset} {dates : List ℕ}
    {rows : List Row} (h : processYear locs g dates = .ok rows) :
    ∃ tidx, get_time_index g.time dates = .ok tidx ∧
      tidx.length = dates.length ∧ rows = yearRows locs g tidx dates := by
  unfold processYear at h
  cases hg : get_time_index g.time dates with
  | error e => rw [hg] at h; cases h
  | ok tidx =>
    rw [hg] at h
    cases h
    exact ⟨tidx, rfl, (get_time_index_ok dates hg).1, rfl⟩

theorem yearRows_sst_isSome {locs : List (ℚ × ℚ)} {g : Dataset}
    {tidx dates : List ℕ} {r : Row} (h : r ∈ yearRows locs g tidx dates) :
    r.sst.isSome := by
  unfold yearRows at h
  rcases List.mem_flatMap.1 h with ⟨dt, _, hr⟩
  rcases List.mem_map.1 hr with ⟨p, _, rfl⟩
  rfl

/-- The date/lat/lon skeleton of one year's rows: the time indices only feed
the measurement column, so the skeleton is a clean date × location product. -/
theorem yearRows_skel {locs : List (ℚ × ℚ)} {g : Dataset} {tidx dates : List ℕ}
    (h : tidx.length = dates.length) :
    (yearRows locs g tidx dates).map skel =
      dates.flatMap (fun d => (get_lat_lon_index g.lat g.lon locs).map
        (fun p => (d, g.lat.getD p.1 0, g.lon.getD p.2 0))) := by
  unfold yearRows
  rw [List.map_flatMap]
  rw [← zip_flatMap_fst dates tidx _ h.symm]
  apply flatMap_congr_mem
  intro dt _
  rw [List.map_map]
  rfl

theorem processAll_sst_isSome {locs : List (ℚ × ℚ)} {data : ℕ → Dataset} :
    ∀ (units : List (ℕ × List ℕ)) {raw : List Row},
    processAll locs data units = .ok raw → ∀ r ∈ raw, r.sst.isSome
  | [], raw, h => by
    rw [processAll] at h
    cases h
    intro r hr
    cases hr
  | (y, dy) :: rest, raw, h => by
    rw [processAll] at h
    cases h1 : processYear locs (read_dataset (data y)) dy with
    | error e => rw [h1] at h; cases h
    | ok r1 =>
      rw [h1] at h
      cases h2 : processAll locs data rest with
      | error e => rw [h2] at h; cases h
      | ok r2 =>
        rw [h2] at h
        cases h
        intro r hr
        rcases List.mem_append.1 hr with hr | hr
        · rcases processYear_ok h1 with ⟨tidx, _, _, rfl⟩
          exact yearRows_sst_isSome hr
        · exact processAll_sst_isSome rest h2 r hr

/-- Per-unit skeleton characterisation of the main loop. -/
theorem processAll_skel {locs : List (ℚ × ℚ)} {data : ℕ → Dataset} :
    ∀ (units : List (ℕ × List ℕ)) {raw : List Row},
    processAll locs data units = .ok raw →
    raw.map skel = units.flatMap (fun u => u.2.flatMap (fun d =>
      (get_lat_lon_index (read_dataset (data u.1)).lat
          (read_dataset (data u.1)).lon locs).map
        (fun p => (d, (read_dataset (data u.1)).lat.getD p.1 0,
                      (read_dataset (data u.1)).lon.getD p.2 0))))
  | [], raw, h => by
    rw [processAll] at h
    cases h
    rfl
  | (y, dy) :: rest, raw, h => by
    rw [processAll] at h
    cases h1 : processYear locs (read_dataset (data y)) dy with
    | error e => rw [h1] at h; cases h
    | ok r1 =>
      rw [h1] at h
      cases h2 : processAll locs data rest with
      | error e => rw [h2] at h; cases h
      | ok r2 =>
        rw [h2] at h
        cases h
        rcases processYear_ok h1 with ⟨tidx, _, hlen, rfl⟩
        rw [List.map_append, List.flatMap_cons, yearRows_skel hlen,
          processAll_skel rest h2]

theorem download_ok {req : Request} {data : ℕ → Dataset} {out : List Row}
    {w : Bool} (h : download req data = .ok (out, w)) :
    workUnits req.startDate req.endDate ≠ [] ∧
    ∃ raw, processAll req.locations data (workUnits req.startDate req.endDate) = .ok raw ∧
      out = raw.map replaceSentinel ∧
      w = (raw.countP (fun r => r.sst.isNone) == raw.length) := by
  unfold download at h
  by_cases hu : (workUnits req.startDate req.endDate).isEmpty
  · rw [if_pos hu] at h
    cases h
  · rw [if_neg hu] at h
    cases hp : processAll req.locations data (workUnits req.startDate req.endDate) with
    | error e => rw [hp] at h; cases h
    | ok raw =>
      rw [hp] at h
      simp only [Except.map] at h
      cases h
      exact ⟨by simpa [List.isEmpty_iff] using hu, raw, rfl, rfl, rfl⟩

theorem skel_replaceSentinel (r : Row) : skel (replaceSentinel r) = skel r := by
  unfold replaceSentinel
  cases r.sst with
  | none => rfl
  | some v =>
    dsimp only
    split <;> rfl

theorem getD_map_lt {α β : Type} (f : α → β) : ∀ (l : List α) (i : ℕ),
    i < l.length → ∀ (d : β) (dA : α), (l.map f).getD i d = f (l.getD i dA)
  | [], i, hi, _, _ => absurd hi (by simp)
  | a :: t, 0, _, _, _ => rfl
  | a :: t, i + 1, hi, d, dA => by
    rw [List.map_cons, List.getD_cons_succ, List.getD_cons_succ]
    exact getD_map_lt f t i (by simpa using hi) d dA

theorem get_lat_lon_index_length (lat lon : List ℚ) (locs : List (ℚ × ℚ)) :
    (get_lat_lon_index lat lon locs).length = locs.length := by
  unfold get_lat_lon_index
  rw [List.length_map]

/-- Skeleton of the whole output table: one block of grid cells per date of
the requested range, dates in range order, each block listing the query
locations in input order against that date's year grid. -/
theorem download_skel {req : Request} {data : ℕ → Dataset} {out : List Row}
    {w : Bool} (h : download req data = .ok (out, w)) :
    out.map skel = (dateRange req.startDate req.endDate).flatMap (fun d =>
      (get_lat_lon_index (read_dataset (data (yearOf d))).lat
          (read_dataset (data (yearOf d))).lon req.locations).map
        (fun p => (d, (read_dataset (data (yearOf d))).lat.getD p.1 0,
                      (read_dataset (data (yearOf d))).lon.getD p.2 0))) := by
  rcases download_ok h with ⟨-, raw, hraw, rfl, -⟩
  have h1 : (raw.map replaceSentinel).map skel = raw.map skel := by
    rw [List.map_map]
    exact List.map_congr_left (fun r _ => skel_replaceSentinel r)
  rw [h1, processAll_skel _ hraw]
  unfold workUnits
  rw [List.flatMap_map]
  exact flatMap_yearGroups _ (dateRange_years_pairwise _ _) _

theorem download_length {req : Request} {data : ℕ → Dataset} {out : List Row}
    {w : Bool} (h : download req data = .ok (out, w)) :
    out.length =
      (dateRange req.startDate req.endDate).length * req.locations.length := by
  have hskel := download_skel h
  have hlen : (out.map skel).length = out.length := List.length_map _ _
  rw [hskel] at hlen
  rw [← hlen]
  exact flatMap_length_const _ _ _ (fun d _ => by
    rw [List.length_map, get_lat_lon_index_length])

/-- Row `i` of the output is the cross-product entry for date `i / L` of the
range and query location `i % L` (`L` = number of query locations). -/
theorem download_row_getD {req : Request} {data : ℕ → Dataset} {out : List Row}
    {w : Bool} (h : download req data = .ok (out, w))
    (hL : 0 < req.locations.length) (i : ℕ) (hi : i < out.length) :
    skel (out.getD i defRow) =
      ((dateRange req.startDate req.endDate).getD (i / req.locations.length) 0,
       cellCoords
         (data (yearOf
           ((dateRange req.startDate req.endDate).getD (i / req.locations.length) 0)))
         req.locations (i % req.locations.length)) := by
  have hskel := download_skel h
  have hlen := download_length h
  have h1 : (out.map skel).getD i (0, 0, 0) = skel (out.getD i defRow) :=
    getD_map_lt skel out i hi _ defRow
  rw [hskel] at h1
  rw [flatMap_getD req.locations.length hL 0 (0, (0 : ℚ), (0 : ℚ)) _ _
    (fun d _ => by rw [List.length_map, get_lat_lon_index_length]) i
    (by rw [← hlen]; exact hi)] at h1
  rw [getD_map_lt _ _ (i % req.locations.length)
    (by rw [get_lat_lon_index_length]; exact Nat.mod_lt i hL) _ (0, 0)] at h1
  rw [← h1]
  unfold cellCoords
  rfl

/-! ## Claim theorems -/

/-- C1 (amended): in every successful run of `download`, a raw extracted SST
value becomes the missing marker exactly when it lies *strictly below*
-9e35; a raw value equal to -9e35 (or above) is kept as a numeric reading and
is never turned into a missing marker.  (The claim's "≤ -9e35" fails: the
source uses the strict comparison `output['SST'] < -9e35`.) -/
theorem C1_sentinel_strict (req : Request) (data : ℕ → Dataset)
    (out : List Row) (w : Bool) (hok : download req data = .ok (out, w)) :
    ∃ raw, processAll req.locations data (workUnits req.startDate req.endDate) =
        .ok raw ∧
      out.length = raw.length ∧
      ∀ i, i < raw.length → ∃ v : ℚ, (raw.getD i defRow).sst = some v ∧
        (out.getD i defRow).sst =
          if v < missingThreshold then none else some v := by
  rcases download_ok hok with ⟨-, raw, hraw, rfl, -⟩
  refine ⟨raw, hraw, List.length_map _ _, ?_⟩
  intro i hi
  have hmem : raw.getD i defRow ∈ raw := by
    rw [List.getD_eq_getElem _ _ hi]
    exact List.getElem_mem _
  rcases Option.isSome_iff_exists.1 (processAll_sst_isSome _ hraw _ hmem) with ⟨v, hv⟩
  refine ⟨v, hv, ?_⟩
  have hidx : (raw.map replaceSentinel).getD i defRow =
      replaceSentinel (raw.getD i defRow) :=
    getD_map_lt replaceSentinel raw i hi defRow defRow
  rw [hidx]
  unfold replaceSentinel
  rw [hv]
  dsimp only
  by_cases hcond : v < missingThreshold
  · rw [if_pos hcond, if_pos hcond]
  · rw [if_neg hcond, if_neg hcond]
    exact hv

/-- C1 counterexample: a run whose only raw extracted value is exactly -9e35
(which is ≤ -9e35) returns that value as a numeric reading, not as the
missing marker, so "any raw value ≤ -9e35 becomes missing" is false. -/
theorem C1_sentinel_counterexample :
    processAll reqB.locations dataThreshold
        (workUnits reqB.startDate reqB.endDate) =
      .ok [⟨0, 0, 0, some missingThreshold⟩] ∧
    download reqB dataThreshold =
      .ok ([⟨0, 0, 0, some missingThreshold⟩], false) := by
  constructor
  · decide
  · decide

/-- C1 witness: the amended sentinel law observed on a concrete successful
run. -/
theorem C1_sentinel_witness :
    ∃ raw, processAll reqA.locations dataA (workUnits reqA.startDate reqA.endDate) =
        .ok raw ∧
      outA.length = raw.length ∧
      ∀ i, i < raw.length → ∃ v : ℚ, (raw.getD i defRow).sst = some v ∧
        (outA.getD i defRow).sst =
          if v < missingThreshold then none else some v :=
  C1_sentinel_strict reqA dataA outA false (by decide)

/-- C2 (code bug): with one query location and one date on a grid whose every
cell holds the sentinel -9.96921e+36, `download` completes and returns the
expected single row, that row's SST is the missing marker, yet the warning
flag is `false`.  The source counts nulls *before* replacing values < -9e35 —
at that moment the sentinel is still numeric, so the null count is 0 and the
all-missing warning never fires in exactly the all-sentinel situation the
claim (and the warning text about land locations) describes. -/
theorem C2_all_missing_code_bug :
    download reqB dataSentinel = .ok ([⟨0, 0, 0, none⟩], false) := by decide

/-- C3: a successful `download` on a non-empty inclusive date range with a
non-empty location list returns exactly
(number of requested dates) × (number of query locations) rows. -/
theorem C3_row_count (req : Request) (data : ℕ → Dataset) (out : List Row)
    (w : Bool) (_hrange : req.startDate ≤ req.endDate)
    (_hloc : req.locations ≠ []) (hok : download req data = .ok (out, w)) :
    out.length =
      (dateRange req.startDate req.endDate).length * req.locations.length :=
  download_length hok

/-- C3 witness: the row-count law observed on a concrete run (2 dates × 1
location = 2 rows). -/
theorem C3_row_count_witness :
    outA.length =
      (dateRange reqA.startDate reqA.endDate).length * reqA.locations.length :=
  C3_row_count reqA dataA outA false (by decide) (by decide) (by decide)

/-- C4: output rows are date-major — the row at flat index `i` carries the
`(i / L)`-th date of the chronologically ordered range (so all rows of an
earlier date precede all rows of a later date and the date column is
non-decreasing), and within a date block the `(i % L)`-th row carries the
grid cell chosen for the `(i % L)`-th query location of the original input
order (`L` = location count). -/
theorem C4_row_ordering (req : Request) (data : ℕ → Dataset) (out : List Row)
    (w : Bool) (hrange : req.startDate ≤ req.endDate)
    (hloc : req.locations ≠ []) (hok : download req data = .ok (out, w)) :
    (∀ i j, i ≤ j → j < out.length →
      (out.getD i defRow).date ≤ (out.getD j defRow).date) ∧
    (∀ i, i < out.length →
      (out.getD i defRow).date =
        (dateRange req.startDate req.endDate).getD (i / req.locations.length) 0 ∧
      ((out.getD i defRow).lat, (out.getD i defRow).lon) =
        cellCoords
          (data (yearOf ((dateRange req.startDate req.endDate).getD
            (i / req.locations.length) 0)))
          req.locations (i % req.locations.length)) := by
  have hL : 0 < req.locations.length := List.length_pos.2 hloc
  have hlen := download_length hok
  have hpart : ∀ i, i < out.length →
      (out.getD i defRow).date =
        (dateRange req.startDate req.endDate).getD (i / req.locations.length) 0 ∧
      ((out.getD i defRow).lat, (out.getD i defRow).lon) =
        cellCoords
          (data (yearOf ((dateRange req.startDate req.endDate).getD
            (i / req.locations.length) 0)))
          req.locations (i % req.locations.length) := by
    intro i hi
    have h := download_row_getD hok hL i hi
    exact ⟨congrArg Prod.fst h, congrArg Prod.snd h⟩
  refine ⟨?_, hpart⟩
  intro i j hij hj
  have hi : i < out.length := lt_of_le_of_lt hij hj
  have hdi : i / req.locations.length < (dateRange req.startDate req.endDate).length := by
    rw [hlen] at hi
    exact (Nat.div_lt_iff_lt_mul hL).2 hi
  have hdj : j / req.locations.length < (dateRange req.startDate req.endDate).length := by
    rw [hlen] at hj
    exact (Nat.div_lt_iff_lt_mul hL).2 hj
  rw [(hpart i hi).1, (hpart j hj).1,
    dateRange_getD _ _ _ hrange hdi, dateRange_getD _ _ _ hrange hdj]
  exact Nat.add_le_add_left (Nat.div_le_div_right hij) _

/-- C4 witness: the ordering law observed on a concrete run. -/
theorem C4_row_ordering_witness :
    (∀ i j, i ≤ j → j < outA.length →
      (outA.getD i defRow).date ≤ (outA.getD j defRow).date) ∧
    (∀ i, i < outA.length →
      (outA.getD i defRow).date =
        (dateRange reqA.startDate reqA.endDate).getD (i / reqA.locations.length) 0 ∧
      ((outA.getD i defRow).lat, (outA.getD i defRow).lon) =
        cellCoords
          (dataA (yearOf ((dateRange reqA.startDate reqA.endDate).getD
            (i / reqA.locations.length) 0)))
          reqA.locations (i % reqA.locations.length)) :=
  C4_row_ordering reqA dataA outA false (by decide) (by decide) (by decide)

set_option maxRecDepth 8000 in
/-- C5: the year partitioner enumerates every calendar date of the inclusive
range and groups by calendar year — concatenating the units' date lists in
unit order restores the enumerated range exactly; each unit's remote resource
identifier is the fixed base location with `sst.day.mean.<year>.nc` appended
and its date list is exactly that year's requested dates in order, never
empty; there is exactly one unit per distinct year (the key list is
duplicate-free, one unit per key); and the request 2010-12-30 .. 2011-01-02
yields exactly the two expected work units. -/
theorem C5_year_partitioner :
    (∀ s e : ℕ,
      ((remoteToLocalDirMapping s e).map WorkUnit.dates).flatten = dateRange s e ∧
      (remoteToLocalDirMapping s e).length = (yearKeys (dateRange s e)).length ∧
      (yearKeys (dateRange s e)).Nodup ∧
      ∀ u ∈ remoteToLocalDirMapping s e, ∃ y,
        u.remoteUrl = sstDataParentDir ++ "sst.day.mean." ++ toString y ++ ".nc" ∧
        u.dates = yearGroup (dateRange s e) y ∧ u.dates ≠ []) ∧
    remoteToLocalDirMapping (daysFromCivil 2010 12 30) (daysFromCivil 2011 1 2) =
      [⟨sstDataParentDir ++ "sst.day.mean.2010.nc",
        [daysFromCivil 2010 12 30, daysFromCivil 2010 12 31]⟩,
       ⟨sstDataParentDir ++ "sst.day.mean.2011.nc",
        [daysFromCivil 2011 1 1, daysFromCivil 2011 1 2]⟩] := by
  constructor
  · intro s e
    refine ⟨?_, ?_, yearKeys_nodup _, ?_⟩
    · unfold remoteToLocalDirMapping
      rw [List.map_map]
      exact flatten_yearGroups _ (dateRange_years_pairwise s e)
    · unfold remoteToLocalDirMapping
      rw [List.length_map]
    · intro u hu
      unfold remoteToLocalDirMapping at hu
      rcases List.mem_map.1 hu with ⟨y, hy, rfl⟩
      refine ⟨y, rfl, rfl, ?_⟩
      rcases mem_yearKeys.1 hy with ⟨x, hx, hxy⟩
      exact List.ne_nil_of_mem (List.mem_filter.2 ⟨hx, by simp [hxy]⟩)
  · decide

/-- C5 witness: the partitioning observed on the concrete two-year request. -/
theorem C5_year_partitioner_witness :
    remoteToLocalDirMapping (daysFromCivil 2010 12 30) (daysFromCivil 2011 1 2) =
      [⟨sstDataParentDir ++ "sst.day.mean.2010.nc",
        [daysFromCivil 2010 12 30, daysFromCivil 2010 12 31]⟩,
       ⟨sstDataParentDir ++ "sst.day.mean.2011.nc",
        [daysFromCivil 2011 1 1, daysFromCivil 2011 1 2]⟩] :=
  C5_year_partitioner.2

/-- C6: on success, `get_time_index` returns one index per requested date,
each a valid position of the time axis whose entry decodes (1800-01-01 plus
the day-offset; day-numbers in this embedding) to exactly the requested
date; if any requested date has no exact match in the time axis, it fails
hard with the date-lookup error instead of silently skipping. -/
theorem C6_time_index (tl dates : List ℕ) :
    (∀ idxs, get_time_index tl dates = .ok idxs →
      idxs.length = dates.length ∧
      ∀ k, k < dates.length → idxs.getD k 0 < tl.length ∧
        tl.getD (idxs.getD k 0) 0 = dates.getD k 0) ∧
    ((∃ d ∈ dates, d ∉ tl) → get_time_index tl dates = .error .dateKeyError) :=
  ⟨fun _ h => get_time_index_ok dates h, get_time_index_error dates⟩

/-- C6 witness: a date absent from the time axis raises the hard error. -/
theorem C6_time_index_witness :
    get_time_index [3, 5] [7] = .error .dateKeyError :=
  (C6_time_index [3, 5] [7]).2 ⟨7, by decide, by decide⟩

/-- C7: `read_dataset` maps `normalizeLon` over the longitude axis and leaves
the other arrays untouched; `normalizeLon` is the identity on [-180, 180]
(hence idempotent on all raw values below 360), and subtracts exactly 360
from every value in (180, 360), landing in [-180, 180). -/
theorem C7_lon_normalization :
    (∀ g : Dataset, (read_dataset g).lon = g.lon.map normalizeLon ∧
      (read_dataset g).lat = g.lat ∧ (read_dataset g).time = g.time ∧
      (read_dataset g).sst = g.sst) ∧
    (∀ x : ℚ, -180 ≤ x → x ≤ 180 → normalizeLon x = x) ∧
    (∀ x : ℚ, x ≤ 360 → normalizeLon (normalizeLon x) = normalizeLon x) ∧
    (∀ x : ℚ, 180 < x → x < 360 →
      normalizeLon x = x - 360 ∧ -180 ≤ normalizeLon x ∧ normalizeLon x < 180) := by
  refine ⟨fun g => ⟨rfl, rfl, rfl, rfl⟩, ?_, ?_, ?_⟩
  · intro x _ h2
    unfold normalizeLon
    rw [if_pos h2]
  · intro x hx
    unfold normalizeLon
    by_cases h : x ≤ 180
    · simp [h]
    · simp only [h, if_false]
      rw [if_pos (by linarith)]
  · intro x h1 h2
    unfold normalizeLon
    rw [if_neg (by linarith)]
    exact ⟨rfl, by linarith, by linarith⟩

/-- C7 witness: a value in (180, 360) at a concrete point. -/
theorem C7_lon_normalization_witness :
    normalizeLon 200 = 200 - 360 ∧ -180 ≤ normalizeLon 200 ∧ normalizeLon 200 < 180 :=
  C7_lon_normalization.2.2.2 200 (by norm_num) (by norm_num)

/-- C8: against a non-empty grid, `get_lat_lon_index` returns one index pair
per query location; each returned pair is a grid candidate's index pair of
minimal (squared) Euclidean distance to that query location over the full
lat × lon candidate set; and a query coinciding exactly with the grid cell
centre `(lat[j], lon[i])` (axes duplicate-free) resolves to exactly
`(j, i)`. -/
theorem C8_nearest_cell (lat lon : List ℚ) (locs : List (ℚ × ℚ))
    (hlat : lat ≠ []) (hlon : lon ≠ []) :
    (get_lat_lon_index lat lon locs).length = locs.length ∧
    ∀ p, p < locs.length →
      (∃ c ∈ gridCandidates lat lon,
        (get_lat_lon_index lat lon locs).getD p (0, 0) = c.2 ∧
        ∀ c' ∈ gridCandidates lat lon,
          dist2 c.1 (locs.getD p (0, 0)) ≤ dist2 c'.1 (locs.getD p (0, 0))) ∧
      (lat.Nodup → lon.Nodup → ∀ j i, j < lat.length → i < lon.length →
        locs.getD p (0, 0) = (lat.getD j 0, lon.getD i 0) →
        (get_lat_lon_index lat lon locs).getD p (0, 0) = (j, i)) := by
  refine ⟨get_lat_lon_index_length lat lon locs, ?_⟩
  intro p hp
  have hidx : (get_lat_lon_index lat lon locs).getD p (0, 0) =
      nearestCell lat lon (locs.getD p (0, 0)) :=
    getD_map_lt (nearestCell lat lon) locs p hp (0, 0) (0, 0)
  constructor
  · rcases nearestCell_spec (locs.getD p (0, 0)) hlat hlon with ⟨c, hcm, hce, hcmin⟩
    exact ⟨c, hcm, by rw [hidx, hce], hcmin⟩
  · intro hnl hno j i hj hi hq
    rw [hidx, hq]
    exact nearestCell_exact hnl hno hj hi

/-- C8 witness: the exact-centre case on a concrete 2 × 2 grid. -/
theorem C8_nearest_cell_witness :
    (get_lat_lon_index [1, 2] [3, 4] [(2, 3)]).getD 0 (0, 0) = (1, 0) :=
  ((C8_nearest_cell [1, 2] [3, 4] [(2, 3)] (by decide) (by decide)).2 0
    (by decide)).2 (by decide) (by decide) 1 0 (by decide) (by decide) (by decide)

/-- C9: every string passed as the `locations` argument of `download_sst` —
two characters, longer, or any other string — and every input of an
unsupported type is rejected with `TypeError` uniformly in the data oracle,
i.e. before any network retrieval or file access can be attempted. -/
theorem C9_string_rejection :
    (∀ (s : String) (sd ed : ℕ) (data : ℕ → Dataset),
      download_sst (.str s) sd ed data = .error .typeError) ∧
    ∀ (sd ed : ℕ) (data : ℕ → Dataset),
      download_sst .other sd ed data = .error .typeError :=
  ⟨fun _ _ _ _ => rfl, fun _ _ _ => rfl⟩

/-- C10: a flat all-numeric sequence whose length is not 2 passes the
supported-shape peek (its first element is numeric), so `from_tuples` does
not raise the documented unsupported-shape `TypeError`; it builds the
one-row frame and then fails with the column-count length-mismatch error
when the two column names are assigned. -/
theorem C10_flat_sequence_mismatch (qs : List ℚ) (hne : qs ≠ [])
    (hlen : qs.length ≠ 2) :
    from_tuples (qs.map PyVal.num) = .error .lengthMismatch ∧
    from_tuples (qs.map PyVal.num) ≠ .error .typeError := by
  match qs, hne with
  | q :: t, _ =>
    unfold from_tuples
    simp only [List.map_cons, List.head?_cons, List.length_cons, List.length_map]
    rw [if_neg (show ¬(t.length + 1 = 2) by simpa using hlen)]
    exact ⟨rfl, by decide⟩

/-- C10 witness: the length-3 flat sequence from the claim. -/
theorem C10_flat_sequence_mismatch_witness :
    from_tuples [PyVal.num 10, PyVal.num 20, PyVal.num 30] = .error .lengthMismatch ∧
    from_tuples [PyVal.num 10, PyVal.num 20, PyVal.num 30] ≠ .error .typeError :=
  C10_flat_sequence_mismatch [10, 20, 30] (by decide) (by decide)

end SST
